import Mathlib

/-!
Shallow embedding of the `stalog` request-context logging library
(package `stalog`, files `stackdriver.go` and `middleware.go`).

Modelling conventions:

* Go `Severity` is an `int` (`iota * 100`); it is embedded as `Int`.
* Mutable external resources (the context-log sink `l.out`, the request-log
  sink `config.RequestLogOut`, `os.Stderr`, and the wrapped
  `http.ResponseWriter`) are modelled as explicit state threaded through the
  operations (`World` below); their *behaviour* (errors returned by writes,
  outcomes of `json.Marshal`) is an oracle (`Env`).
* `time.Now`, `runtime.Caller` and `getServerIp` are external inputs; each
  operation takes the values they would produce as extra string arguments.
* `json.Marshal` outcomes are abstracted by an oracle returning either a
  marshalling error or success; emitted lines are recorded at the level of
  the structured records (`contextLog`, `HttpRequestLog`) that the Go code
  serialises, since all claims are about fields of those records.
* A Go call that returns an `error` is embedded as a function returning
  `Option String` (`none` = `nil` error), alongside the updated state.
-/

namespace Stalog

/-- Go `Severity` is `type Severity int`. -/
abbrev Severity := Int

/-- `SeverityDefault Severity = iota * 100` — rank 0. -/
def SeverityDefault : Severity := 0

/-- Rank of `SeverityDebug`. -/
def SeverityDebug : Severity := 100

/-- Rank of `SeverityInfo`. -/
def SeverityInfo : Severity := 200

/-- Rank of `SeverityNotice`. -/
def SeverityNotice : Severity := 300

/-- Rank of `SeverityWarning`. -/
def SeverityWarning : Severity := 400

/-- Rank of `SeverityError`. -/
def SeverityError : Severity := 500

/-- Rank of `SeverityCritical`. -/
def SeverityCritical : Severity := 600

/-- Rank of `SeverityAlert`. -/
def SeverityAlert : Severity := 700

/-- Rank of `SeverityEmergency`. -/
def SeverityEmergency : Severity := 800

/-- The nine named severity values, in declaration order. -/
def severityNames : List Severity :=
  [SeverityDefault, SeverityDebug, SeverityInfo, SeverityNotice, SeverityWarning,
   SeverityError, SeverityCritical, SeverityAlert, SeverityEmergency]

/-- `func (s Severity) String() string` — the `switch` in `stackdriver.go`. -/
def Severity.String (s : Severity) : String :=
  if s = SeverityDefault then "DEFAULT"
  else if s = SeverityDebug then "DEBUG"
  else if s = SeverityInfo then "INFO"
  else if s = SeverityNotice then "NOTICE"
  else if s = SeverityWarning then "WARNING"
  else if s = SeverityError then "ERROR"
  else if s = SeverityCritical then "CRITICAL"
  else if s = SeverityAlert then "ALERT"
  else if s = SeverityEmergency then "EMERGENCY"
  else "UNKNOWN"

/-- Go `AdditionalData map[string]interface{}`; its contents are opaque to all
claims, modelled as an association list with opaque string values. -/
abbrev AdditionalData := List (String × String)

/-- `type SourceLocation struct` in `stackdriver.go`. -/
structure SourceLocation where
  file : String
  line : String
  function : String
deriving DecidableEq, Repr

/-- `type contextLog struct` in `stackdriver.go` — the structured record the
code serialises for one application log line. -/
structure contextLog where
  Time : String
  Trace : String
  SourceLocation : SourceLocation
  Severity : String
  Message : String
  AdditionalData : AdditionalData
deriving DecidableEq, Repr

/-- `type ContextLogger struct` in `stackdriver.go`. The `out io.Writer` field
is externalised into `World` / `Env`; the remaining fields are data.
`Severity` is the configured minimum-severity threshold. -/
structure ContextLogger where
  Trace : String
  loggedSeverity : List Severity
  Severity : Severity
  AdditionalData : AdditionalData
  Skip : Nat
deriving DecidableEq, Repr

/-- `type HttpRequest struct` in `middleware.go`. -/
structure HttpRequest where
  RequestMethod : String
  RequestUrl : String
  RequestSize : String
  Status : Int
  ResponseSize : String
  UserAgent : String
  RemoteIp : String
  ServerIp : String
  Referer : String
  Latency : String
  CacheLookup : Bool
  CacheHit : Bool
  CacheValidatedWithOriginServer : Bool
  Protocol : String
deriving DecidableEq, Repr

/-- `type HttpRequestLog struct` in `middleware.go` — the structured record
serialised for the single access-log line. -/
structure HttpRequestLog where
  Time : String
  Trace : String
  Severity : String
  HttpRequest : HttpRequest
  AdditionalData : AdditionalData
deriving DecidableEq, Repr

/-- `type Config struct` in `stackdriver.go`; the two `io.Writer` sinks are
externalised into `World` / `Env`. -/
structure Config where
  ProjectId : String
  Severity : Severity
  AdditionalData : AdditionalData
  Skip : Nat
deriving DecidableEq, Repr

/-- The data of an `*http.Request` that `writeRequestLog` and `getRemoteIp`
read. -/
structure RequestFacts where
  Method : String
  RequestURI : String
  ContentLength : Int
  UserAgent : String
  RemoteAddr : String
  Referer : String
  Proto : String
deriving DecidableEq, Repr

/-- State of `wrappedResponseWriter` in `middleware.go` (its own two fields;
the embedded `http.ResponseWriter` lives in `UnderState`). Go zero values give
`status = 0`, `responseSize = 0` for a fresh wrapper. -/
structure WrwState where
  status : Int
  responseSize : Nat
deriving DecidableEq, Repr

/-- Observable trace of the underlying `http.ResponseWriter` the wrapper
forwards to: body chunks and header calls forwarded so far, and how many
`Write` calls were made (used to index the oracle's per-call responses). -/
structure UnderState where
  chunks : List (List Nat)
  headerCalls : List Int
  calls : Nat
deriving DecidableEq, Repr

/-- Oracle for the external world's behaviour: `json.Marshal` outcomes
(`some e` = marshalling fails with error text `e`), the error returned by the
n-th `Write` on each sink, and the `(n, err)` result of the n-th `Write` on
the underlying response writer. -/
structure Env where
  marshalCtx : contextLog → Option String
  ctxSinkErr : Nat → Option String
  marshalReq : HttpRequestLog → Option String
  reqSinkErr : Nat → Option String
  underWrite : Nat → List Nat → Nat × Option String

/-- The full mutable state one request's handling touches: the request-scoped
`ContextLogger`, the diagnostic stream (`os.Stderr`) as a list of lines, the
two log sinks as lists of the structured records whose serialisations were
written to them (with call counters indexing the error oracle), and the
response writer pair. -/
structure World where
  logger : ContextLogger
  stderrLines : List String
  contextSink : List contextLog
  contextSinkCalls : Nat
  requestSink : List HttpRequestLog
  requestSinkCalls : Nat
  wrw : WrwState
  under : UnderState

/-- The `contextLog` record `ContextLogger.write` builds for an accepted call
(`stackdriver.go` lines 288-295). -/
def mkContextLog (now : String) (loc : SourceLocation) (trace : String)
    (ad : AdditionalData) (severity : Severity) (msg : String) : contextLog :=
  { Time := now, Trace := trace, SourceLocation := loc,
    Severity := Severity.String severity, Message := msg, AdditionalData := ad }

/-- `func (l *ContextLogger) write(severity Severity, msg string) error`
(`stackdriver.go` lines 270-308). Below-threshold calls return `nil` at once;
otherwise the severity is appended to `loggedSeverity`, the entry is built,
and marshalling failure prints the error to stderr and returns it, while on
success the entry is written to the context sink and the sink's error (if
any) is returned. `now` and `loc` are the values `time.Now` /
`runtime.Caller` produce at this call. -/
def ContextLogger.write (env : Env) (now : String) (loc : SourceLocation)
    (w : World) (severity : Stalog.Severity) (msg : String) : World × Option String :=
  if severity < w.logger.Severity then
    (w, none)
  else
    let logger :=
      { w.logger with loggedSeverity := w.logger.loggedSeverity ++ [severity] }
    let entry := mkContextLog now loc logger.Trace logger.AdditionalData severity msg
    match env.marshalCtx entry with
    | some e =>
        ({ w with logger := logger, stderrLines := w.stderrLines ++ [e] }, some e)
    | none =>
        ({ w with logger := logger,
                  contextSink := w.contextSink ++ [entry],
                  contextSinkCalls := w.contextSinkCalls + 1 },
         env.ctxSinkErr w.contextSinkCalls)

/-- The common body of every public logging method (`Info`, `Errorf`,
`Debugln`, ...): `_ = l.write(sev, msg)` — the error is discarded and the
method returns normally. The message-construction variants (`Sprint`,
`Sprintf`, `Sprintln`) differ only in how `msg` is built. -/
def ContextLogger.publicLog (sev : Stalog.Severity) (env : Env) (now : String)
    (loc : SourceLocation) (w : World) (msg : String) : World :=
  (ContextLogger.write env now loc w sev msg).1

/-- `func (l *ContextLogger) Info(args ...interface{})`. -/
def ContextLogger.Info (env : Env) (now : String) (loc : SourceLocation)
    (w : World) (msg : String) : World :=
  ContextLogger.publicLog SeverityInfo env now loc w msg

/-- `func (l *ContextLogger) Error(args ...interface{})`. -/
def ContextLogger.Error (env : Env) (now : String) (loc : SourceLocation)
    (w : World) (msg : String) : World :=
  ContextLogger.publicLog SeverityError env now loc w msg

/-- `func (l *ContextLogger) maxSeverity() Severity`
(`stackdriver.go` lines 310-319): a loop starting from `SeverityDefault`,
replacing the accumulator whenever a strictly larger element is seen. -/
def ContextLogger.maxSeverity (l : ContextLogger) : Stalog.Severity :=
  l.loggedSeverity.foldl (fun mx s => if s > mx then s else mx) SeverityDefault

end Stalog

namespace Stalog

/-- `func getRemoteIp(r *http.Request) string`: first `":"`-separated part of
`r.RemoteAddr` (Go `strings.Split` always yields at least one part). -/
def getRemoteIp (r : RequestFacts) : String :=
  (r.RemoteAddr.splitOn ":").headD ""

/-- The `HttpRequestLog` record `writeRequestLog` builds
(`middleware.go` lines 188-209). `now` is `time.Now` formatted, `latency` the
`"%fs"`-formatted elapsed time, `serverIp` the result of the external
`getServerIp`. -/
def mkRequestLog (now : String) (r : RequestFacts) (config : Config)
    (status : Int) (responseSize : Nat) (latency serverIp trace : String)
    (severity : Severity) : HttpRequestLog :=
  { Time := now, Trace := trace, Severity := Severity.String severity,
    HttpRequest :=
      { RequestMethod := r.Method, RequestUrl := r.RequestURI,
        RequestSize := toString r.ContentLength, Status := status,
        ResponseSize := toString responseSize, UserAgent := r.UserAgent,
        RemoteIp := getRemoteIp r, ServerIp := serverIp, Referer := r.Referer,
        Latency := latency, CacheLookup := false, CacheHit := false,
        CacheValidatedWithOriginServer := false, Protocol := r.Proto },
    AdditionalData := config.AdditionalData }

/-- `func writeRequestLog(...) error` (`middleware.go` lines 187-221): builds
the record, and on marshalling failure returns the error without touching the
sink; on success writes the line to the request-log sink and returns the
sink's error. -/
def writeRequestLog (env : Env) (now : String) (r : RequestFacts)
    (config : Config) (status : Int) (responseSize : Nat)
    (latency serverIp trace : String) (severity : Severity) (w : World) :
    World × Option String :=
  let entry := mkRequestLog now r config status responseSize latency serverIp trace severity
  match env.marshalReq entry with
  | some e => (w, some e)
  | none =>
      ({ w with requestSink := w.requestSink ++ [entry],
                requestSinkCalls := w.requestSinkCalls + 1 },
       env.reqSinkErr w.requestSinkCalls)

/-- `type Reserve struct` (`middleware.go` lines 73-79). The `contextLogger`
pointer aliases the request-scoped logger held in `World.logger`; `before` is
external wall-clock time, so only `config` and `traces` are data here. -/
structure Reserve where
  config : Config
  traces : String
deriving DecidableEq, Repr

/-- The `"projects/%s/traces/%s"` trace resource name computed by
`NewReserve` (`middleware.go` line 92). -/
def traceResource (projectId traceId : String) : String :=
  "projects/" ++ projectId ++ "/traces/" ++ traceId

/-- The fresh `ContextLogger` that `NewReserve` constructs
(`middleware.go` lines 94-101): empty severity history, threshold and
additional data from the config, trace set to the trace resource name. -/
def freshLogger (config : Config) (traceId : String) : ContextLogger :=
  { Trace := traceResource config.ProjectId traceId,
    loggedSeverity := [],
    Severity := config.Severity,
    AdditionalData := config.AdditionalData,
    Skip := config.Skip }

/-- `func NewReserve(config *Config, r *http.Request) *Reserve`
(`middleware.go` lines 81-111), split into its returned `Reserve` value and
its effect on the world (installing the fresh logger). Trace-id resolution
(`getTraceId` / `generateTraceId`) queries the external tracing library, so
the resolved `traceId` is an input. -/
def NewReserve (config : Config) (traceId : String) : Reserve :=
  { config := config, traces := traceResource config.ProjectId traceId }

/-- World update performed by `NewReserve`: the fresh context logger is
created and attached to the request's context storage. -/
def reserveWorld (config : Config) (traceId : String) (w : World) : World :=
  { w with logger := freshLogger config traceId }

/-- `func (rv *Reserve) LastHandling(wrw *wrappedResponseWriter)`
(`middleware.go` lines 113-120): computes `maxSeverity`, writes the request
log with the wrapper's captured status and size, and prints any returned
error to stderr. -/
def Reserve.LastHandling (env : Env) (now latency serverIp : String)
    (r : RequestFacts) (rv : Reserve) (w : World) : World :=
  let mx := w.logger.maxSeverity
  let res := writeRequestLog env now r rv.config w.wrw.status w.wrw.responseSize
      latency serverIp rv.traces mx w
  match res.2 with
  | some e => { res.1 with stderrLines := res.1.stderrLines ++ [e] }
  | none => res.1

/-- `func (w *wrappedResponseWriter) WriteHeader(status int)`
(`middleware.go` lines 148-151): records the status (unconditionally) and
forwards the call to the underlying writer. -/
def wrwWriteHeader (w : WrwState) (u : UnderState) (status : Int) :
    WrwState × UnderState :=
  ({ w with status := status },
   { u with headerCalls := u.headerCalls ++ [status] })

/-- `func (w *wrappedResponseWriter) Write(b []byte) (int, error)`
(`middleware.go` lines 153-160): defaults the status to 200 if still unset,
forwards the write, adds the underlying writer's reported count `n` to
`responseSize`, and returns `(n, err)` unchanged. -/
def wrwWrite (env : Env) (w : WrwState) (u : UnderState) (b : List Nat) :
    WrwState × UnderState × Nat × Option String :=
  let w := if w.status = 0 then { w with status := 200 } else w
  let res := env.underWrite u.calls b
  ({ w with responseSize := w.responseSize + res.1 },
   { u with chunks := u.chunks ++ [b], calls := u.calls + 1 },
   res.1, res.2)

/-- One operation a handler can perform on the wrapped response writer. -/
inductive RWOp where
  | writeHeader (status : Int)
  | writeBody (b : List Nat)
deriving DecidableEq, Repr

/-- Run a sequence of response-writer operations, discarding the per-call
return values. -/
def runOps (env : Env) (w : WrwState) (u : UnderState) :
    List RWOp → WrwState × UnderState
  | [] => (w, u)
  | RWOp.writeHeader c :: rest =>
      let s := wrwWriteHeader w u c
      runOps env s.1 s.2 rest
  | RWOp.writeBody b :: rest =>
      let s := wrwWrite env w u b
      runOps env s.1 s.2.1 rest

/-- Run a sequence of body writes, collecting each call's returned
`(n, err)`. -/
def runWrites (env : Env) (w : WrwState) (u : UnderState) :
    List (List Nat) → WrwState × UnderState × List (Nat × Option String)
  | [] => (w, u, [])
  | b :: bs =>
      let s := wrwWrite env w u b
      let rest := runWrites env s.1 s.2.1 bs
      (rest.1, rest.2.1, (s.2.2.1, s.2.2.2) :: rest.2.2)

/-- The `(n, err)` answers the underlying writer gives to consecutive `Write`
calls starting at call index `c0` (spec-side bookkeeping of the oracle). -/
def underResponses (env : Env) (c0 : Nat) :
    List (List Nat) → List (Nat × Option String)
  | [] => []
  | b :: bs => env.underWrite c0 b :: underResponses env (c0 + 1) bs

end Stalog

namespace Stalog

/-- One observable action a downstream handler can perform during handling:
a logging call on the request's context logger (with the severity its public
method fixes, and the call's external time / call-site inputs), or an
operation on the wrapped response writer. -/
inductive HandlerAct where
  | log (sev : Severity) (msg : String) (now : String) (loc : SourceLocation)
  | writeHeader (status : Int)
  | writeBody (b : List Nat)
deriving DecidableEq, Repr

/-- Effect of one handler action on the world. Logging goes through the
public-method wrapper (error discarded); response-writer operations go
through the wrapper installed by the middleware. -/
def handlerStep (env : Env) (w : World) : HandlerAct → World
  | HandlerAct.log sev msg now loc => ContextLogger.publicLog sev env now loc w msg
  | HandlerAct.writeHeader c =>
      let s := wrwWriteHeader w.wrw w.under c
      { w with wrw := s.1, under := s.2 }
  | HandlerAct.writeBody b =>
      let s := wrwWrite env w.wrw w.under b
      { w with wrw := s.1, under := s.2.1 }

/-- Run the handler's actions in order. -/
def runHandler (env : Env) (w : World) : List HandlerAct → World
  | [] => w
  | a :: rest => runHandler env (handlerStep env w a) rest

/-- How the downstream handler finishes: a normal return, or a panic that
propagates out of `next.ServeHTTP`. -/
inductive Outcome where
  | normal
  | panicked (v : String)
deriving DecidableEq, Repr

/-- A downstream handler, as the middleware observes it: the actions it
performs on the request-scoped logger and the wrapped response writer, and
how it finishes (the actions are exactly those performed before it returned
or panicked). -/
structure HandlerSpec where
  acts : List HandlerAct
  outcome : Outcome
deriving DecidableEq, Repr

/-- The world the downstream handler starts in: `NewReserve` installed a
fresh context logger and the middleware created a fresh
`wrappedResponseWriter` (Go zero values). -/
def preHandlerWorld (config : Config) (traceId : String) (w : World) : World :=
  { reserveWorld config traceId w with wrw := { status := 0, responseSize := 0 } }

/-- `func RequestLogging(config *Config) func(http.Handler) http.Handler`
(`middleware.go` lines 19-35): per request it builds the `Reserve`, wraps the
response writer, runs the handler, and — via `defer` — runs
`reserve.LastHandling(wrw)` whether the handler returned normally or
panicked, after which the handler's outcome propagates to the server. -/
def RequestLogging (env : Env) (config : Config) (traceId : String)
    (h : HandlerSpec) (r : RequestFacts) (now latency serverIp : String)
    (w : World) : World × Outcome :=
  let rv := NewReserve config traceId
  let w1 := preHandlerWorld config traceId w
  let w2 := runHandler env w1 h.acts
  (Reserve.LastHandling env now latency serverIp r rv w2, h.outcome)

/-- One logging call made on a context: its severity (fixed by the public
method used) and message, with the external time / call-site values at that
call. -/
structure LogCall where
  severity : Severity
  msg : String
  now : String
  loc : SourceLocation
deriving DecidableEq, Repr

/-- Run a sequence of logging calls through the public methods. -/
def runCalls (env : Env) (w : World) : List LogCall → World
  | [] => w
  | c :: rest =>
      runCalls env (ContextLogger.publicLog c.severity env c.now c.loc w c.msg) rest

/-- A value stored in the request's context storage: the pointer stored
under `ContextLoggerKey`, or an unrelated value under some other key. -/
inductive CtxValue where
  | loggerRef (l : ContextLogger)
  | other (s : String)
deriving DecidableEq, Repr

/-- Request-scoped context storage (`context.Context` value chain) as a
key/value association list. -/
abbrev ReqCtx := List (String × CtxValue)

/-- The context key under which the middleware stores the logger. Its
declaration is outside the provided sources (only its uses in
`middleware.go` line 102 and `stackdriver.go` line 116 are); its value is an
opaque unique key, modelled as a fixed string. -/
def ContextLoggerKey : String := "stalogContextLogger"

/-- `r.Context().Value(key)`: the value stored under `key`, if any. -/
def ctxLookup (ctx : ReqCtx) (k : String) : Option CtxValue :=
  (ctx.find? (fun p => p.1 == k)).map (fun p => p.2)

/-- `func RequestContextLogger(r *http.Request) *ContextLogger`
(`stackdriver.go` lines 115-118): the `v, _ := ...(.*ContextLogger)` type
assertion yields the stored logger, and `nil` (here `none`) when the key is
absent or holds a value of another type. -/
def RequestContextLogger (ctx : ReqCtx) : Option ContextLogger :=
  match ctxLookup ctx ContextLoggerKey with
  | some (CtxValue.loggerRef l) => some l
  | _ => none

/-- Concrete fixtures used by witness and counterexample theorems. -/
def loc0 : SourceLocation := { file := "main.go", line := "10", function := "main.handler" }

/-- A benign oracle: marshalling always succeeds, sink writes never error,
the underlying response writer accepts every chunk in full. -/
def envOk : Env :=
  { marshalCtx := fun _ => none, ctxSinkErr := fun _ => none,
    marshalReq := fun _ => none, reqSinkErr := fun _ => none,
    underWrite := fun _ b => (b.length, none) }

/-- Oracle whose context-log sink fails every write with a broken pipe. -/
def envSinkFail : Env :=
  { envOk with ctxSinkErr := fun _ => some "write: broken pipe" }

/-- Oracle whose context-log marshalling always fails. -/
def envMarshalFail : Env :=
  { envOk with marshalCtx := fun _ => some "json: unsupported type" }

/-- Default-style config fixture. -/
def cfg0 : Config :=
  { ProjectId := "p", Severity := SeverityInfo, AdditionalData := [], Skip := 2 }

/-- A request-scoped logger as `NewReserve` would create it for `cfg0`. -/
def logger0 : ContextLogger := freshLogger cfg0 "t"

/-- Initial world fixture: fresh logger, empty streams and sinks, fresh
response writer. -/
def world0 : World :=
  { logger := logger0, stderrLines := [], contextSink := [], contextSinkCalls := 0,
    requestSink := [], requestSinkCalls := 0,
    wrw := { status := 0, responseSize := 0 },
    under := { chunks := [], headerCalls := [], calls := 0 } }

/-- Request-facts fixture. -/
def facts0 : RequestFacts :=
  { Method := "GET", RequestURI := "/", ContentLength := 0, UserAgent := "ua",
    RemoteAddr := "127.0.0.1:1234", Referer := "", Proto := "HTTP/1.1" }

end Stalog

namespace Stalog

/-- The loop step of `maxSeverity`. -/
def sevStep (mx s : Severity) : Severity := if s > mx then s else mx

theorem maxSeverity_eq_fold (l : ContextLogger) :
    l.maxSeverity = l.loggedSeverity.foldl sevStep SeverityDefault := rfl

theorem sevStep_left (mx s : Severity) : mx ≤ sevStep mx s := by
  unfold sevStep
  by_cases h : s > mx
  · simp only [if_pos h]
    exact le_of_lt h
  · simp only [if_neg h]
    exact le_refl mx

theorem sevStep_right (mx s : Severity) : s ≤ sevStep mx s := by
  unfold sevStep
  by_cases h : s > mx
  · simp only [if_pos h]
    exact le_refl s
  · simp only [if_neg h]
    exact le_of_not_lt h

theorem foldSev_init_le (l : List Severity) (init : Severity) :
    init ≤ l.foldl sevStep init := by
  induction l generalizing init with
  | nil => exact le_refl _
  | cons a t ih =>
      calc init ≤ sevStep init a := sevStep_left _ _
        _ ≤ (a :: t).foldl sevStep init := by simpa using ih (sevStep init a)

theorem le_foldSev_of_mem (l : List Severity) (init s : Severity)
    (hs : s ∈ l) : s ≤ l.foldl sevStep init := by
  induction l generalizing init with
  | nil => cases hs
  | cons a t ih =>
      rcases List.mem_cons.mp hs with h | h
      · subst h
        calc s ≤ sevStep init s := sevStep_right _ _
          _ ≤ (s :: t).foldl sevStep init := by simpa using foldSev_init_le t _
      · simpa using ih _ h

theorem foldSev_mem_or_init (l : List Severity) (init : Severity) :
    l.foldl sevStep init = init ∨ l.foldl sevStep init ∈ l := by
  induction l generalizing init with
  | nil => exact Or.inl rfl
  | cons a t ih =>
      have hstep : (a :: t).foldl sevStep init = t.foldl sevStep (sevStep init a) := by
        simp
      rcases ih (sevStep init a) with h | h
      · by_cases hgt : a > init
        · right
          have ha : (a :: t).foldl sevStep init = a := by
            rw [hstep, h]
            simp [sevStep, hgt]
          rw [ha]
          exact List.mem_cons_self _ _
        · left
          rw [hstep, h]
          simp [sevStep, hgt]
      · right
        rw [hstep]
        exact List.mem_cons_of_mem _ h

end Stalog

namespace Stalog

theorem write_below (env : Env) (now : String) (loc : SourceLocation)
    (w : World) (sev : Severity) (msg : String) (h : sev < w.logger.Severity) :
    ContextLogger.write env now loc w sev msg = (w, none) := by
  unfold ContextLogger.write
  rw [if_pos h]

/-- Normal form of `write`: the filtered branch, the marshalling-failure
branch, and the success branch, each with the exact state produced. -/
theorem write_spec (env : Env) (now : String) (loc : SourceLocation)
    (w : World) (sev : Severity) (msg : String) :
    (sev < w.logger.Severity ∧ ContextLogger.write env now loc w sev msg = (w, none))
    ∨ (¬ sev < w.logger.Severity ∧ ∃ e,
        env.marshalCtx (mkContextLog now loc w.logger.Trace w.logger.AdditionalData sev msg) = some e ∧
        ContextLogger.write env now loc w sev msg =
          ({ w with
              logger := { w.logger with
                loggedSeverity := w.logger.loggedSeverity ++ [sev] },
              stderrLines := w.stderrLines ++ [e] }, some e))
    ∨ (¬ sev < w.logger.Severity ∧
        env.marshalCtx (mkContextLog now loc w.logger.Trace w.logger.AdditionalData sev msg) = none ∧
        ContextLogger.write env now loc w sev msg =
          ({ w with
              logger := { w.logger with
                loggedSeverity := w.logger.loggedSeverity ++ [sev] },
              contextSink := w.contextSink ++
                [mkContextLog now loc w.logger.Trace w.logger.AdditionalData sev msg],
              contextSinkCalls := w.contextSinkCalls + 1 },
           env.ctxSinkErr w.contextSinkCalls)) := by
  by_cases h : sev < w.logger.Severity
  · exact Or.inl ⟨h, write_below env now loc w sev msg h⟩
  · cases hm : env.marshalCtx (mkContextLog now loc w.logger.Trace w.logger.AdditionalData sev msg) with
    | some e =>
        refine Or.inr (Or.inl ⟨h, e, rfl, ?_⟩)
        unfold ContextLogger.write
        rw [if_neg h]
        simp only []
        rw [hm]
    | none =>
        refine Or.inr (Or.inr ⟨h, rfl, ?_⟩)
        unfold ContextLogger.write
        rw [if_neg h]
        simp only []
        rw [hm]

end Stalog

namespace Stalog

/-- A context-logger write never touches the request-log sink, the response
writer, or the logger's immutable fields (`Trace`, threshold,
`AdditionalData`, `Skip`). -/
theorem write_frame (env : Env) (now : String) (loc : SourceLocation)
    (w : World) (sev : Severity) (msg : String) :
    (ContextLogger.write env now loc w sev msg).1.logger.Trace = w.logger.Trace ∧
    (ContextLogger.write env now loc w sev msg).1.logger.Severity = w.logger.Severity ∧
    (ContextLogger.write env now loc w sev msg).1.logger.AdditionalData = w.logger.AdditionalData ∧
    (ContextLogger.write env now loc w sev msg).1.requestSink = w.requestSink ∧
    (ContextLogger.write env now loc w sev msg).1.requestSinkCalls = w.requestSinkCalls ∧
    (ContextLogger.write env now loc w sev msg).1.wrw = w.wrw ∧
    (ContextLogger.write env now loc w sev msg).1.under = w.under := by
  rcases write_spec env now loc w sev msg with ⟨_, hw⟩ | ⟨_, _, _, hw⟩ | ⟨_, _, hw⟩ <;>
    rw [hw] <;> exact ⟨rfl, rfl, rfl, rfl, rfl, rfl, rfl⟩

/-- An accepted write appends exactly its severity to the history, whatever
the marshalling and sink outcomes. -/
theorem write_accepted_logged (env : Env) (now : String) (loc : SourceLocation)
    (w : World) (sev : Severity) (msg : String) (h : ¬ sev < w.logger.Severity) :
    (ContextLogger.write env now loc w sev msg).1.logger.loggedSeverity
      = w.logger.loggedSeverity ++ [sev] := by
  rcases write_spec env now loc w sev msg with ⟨hlt, _⟩ | ⟨_, _, _, hw⟩ | ⟨_, _, hw⟩
  · exact absurd hlt h
  · rw [hw]
  · rw [hw]

/-- A write either leaves the context sink unchanged or appends the one entry
it built, whose `Trace` is the logger's trace. -/
theorem write_contextSink (env : Env) (now : String) (loc : SourceLocation)
    (w : World) (sev : Severity) (msg : String) :
    (ContextLogger.write env now loc w sev msg).1.contextSink = w.contextSink ∨
    (ContextLogger.write env now loc w sev msg).1.contextSink
      = w.contextSink ++ [mkContextLog now loc w.logger.Trace w.logger.AdditionalData sev msg] := by
  rcases write_spec env now loc w sev msg with ⟨_, hw⟩ | ⟨_, _, _, hw⟩ | ⟨_, _, hw⟩
  · rw [hw]; exact Or.inl rfl
  · rw [hw]; exact Or.inl rfl
  · rw [hw]; exact Or.inr rfl

/-- A handler action never touches the request-log sink. -/
theorem handlerStep_requestSink (env : Env) (w : World) (a : HandlerAct) :
    (handlerStep env w a).requestSink = w.requestSink := by
  cases a with
  | log sev msg now loc => exact (write_frame env now loc w sev msg).2.2.2.1
  | writeHeader c => rfl
  | writeBody b => rfl

/-- A handler action preserves the logger's trace and threshold. -/
theorem handlerStep_logger (env : Env) (w : World) (a : HandlerAct) :
    (handlerStep env w a).logger.Trace = w.logger.Trace ∧
    (handlerStep env w a).logger.Severity = w.logger.Severity := by
  cases a with
  | log sev msg now loc =>
      exact ⟨(write_frame env now loc w sev msg).1, (write_frame env now loc w sev msg).2.1⟩
  | writeHeader c => exact ⟨rfl, rfl⟩
  | writeBody b => exact ⟨rfl, rfl⟩

/-- A handler action leaves the context sink unchanged or appends one entry
carrying the logger's trace. -/
theorem handlerStep_contextSink (env : Env) (w : World) (a : HandlerAct) :
    ∀ e ∈ (handlerStep env w a).contextSink, e ∈ w.contextSink ∨ e.Trace = w.logger.Trace := by
  cases a with
  | log sev msg now loc =>
      intro e he
      rcases write_contextSink env now loc w sev msg with hc | hc
      · rw [show handlerStep env w (HandlerAct.log sev msg now loc)
              = (ContextLogger.write env now loc w sev msg).1 from rfl, hc] at he
        exact Or.inl he
      · rw [show handlerStep env w (HandlerAct.log sev msg now loc)
              = (ContextLogger.write env now loc w sev msg).1 from rfl, hc] at he
        rcases List.mem_append.mp he with h | h
        · exact Or.inl h
        · right
          rw [List.mem_singleton.mp h]
          rfl
  | writeHeader c => exact fun e he => Or.inl he
  | writeBody b => exact fun e he => Or.inl he

theorem runHandler_requestSink (env : Env) (acts : List HandlerAct) :
    ∀ w : World, (runHandler env w acts).requestSink = w.requestSink := by
  induction acts with
  | nil => intro w; rfl
  | cons a rest ih =>
      intro w
      rw [runHandler, ih, handlerStep_requestSink]

theorem runHandler_logger (env : Env) (acts : List HandlerAct) :
    ∀ w : World, (runHandler env w acts).logger.Trace = w.logger.Trace ∧
      (runHandler env w acts).logger.Severity = w.logger.Severity := by
  induction acts with
  | nil => intro w; exact ⟨rfl, rfl⟩
  | cons a rest ih =>
      intro w
      rw [runHandler]
      refine ⟨?_, ?_⟩
      · rw [(ih _).1, (handlerStep_logger env w a).1]
      · rw [(ih _).2, (handlerStep_logger env w a).2]

/-- Every context-sink entry present after the handler ran was either there
before, or carries the request logger's trace. -/
theorem runHandler_contextSink (env : Env) (acts : List HandlerAct) :
    ∀ w : World, ∀ e ∈ (runHandler env w acts).contextSink,
      e ∈ w.contextSink ∨ e.Trace = w.logger.Trace := by
  induction acts with
  | nil => intro w e he; exact Or.inl he
  | cons a rest ih =>
      intro w e he
      rw [runHandler] at he
      rcases ih _ e he with h | h
      · rcases handlerStep_contextSink env w a e h with h' | h'
        · exact Or.inl h'
        · exact Or.inr h'
      · right
        rw [h, (handlerStep_logger env w a).1]

end Stalog

namespace Stalog

/-- Running a sequence of public logging calls appends to the history exactly
the severities of the accepted calls (those at or above the threshold), in
order. -/
theorem runCalls_logged (env : Env) (cs : List LogCall) :
    ∀ w : World, (runCalls env w cs).logger.loggedSeverity
      = w.logger.loggedSeverity ++
        (cs.map LogCall.severity).filter (fun s => decide (w.logger.Severity ≤ s)) := by
  induction cs with
  | nil => intro w; simp [runCalls]
  | cons c rest ih =>
      intro w
      rw [runCalls]
      by_cases h : c.severity < w.logger.Severity
      · have hw : ContextLogger.publicLog c.severity env c.now c.loc w c.msg = w := by
          unfold ContextLogger.publicLog
          rw [write_below env c.now c.loc w c.severity c.msg h]
        have hp : decide (w.logger.Severity ≤ c.severity) = false := by
          simp [not_le.mpr h]
        rw [hw, ih w]
        simp [List.filter_cons, hp]
      · have hT : (ContextLogger.publicLog c.severity env c.now c.loc w c.msg).logger.Severity
            = w.logger.Severity :=
          (write_frame env c.now c.loc w c.severity c.msg).2.1
        have hL : (ContextLogger.publicLog c.severity env c.now c.loc w c.msg).logger.loggedSeverity
            = w.logger.loggedSeverity ++ [c.severity] :=
          write_accepted_logged env c.now c.loc w c.severity c.msg h
        have hp : decide (w.logger.Severity ≤ c.severity) = true := by
          simp [not_lt.mp h]
        rw [ih _]
        simp only [hT, hL]
        simp [List.filter_cons, hp]

/-- Public logging calls preserve the threshold and the trace. -/
theorem runCalls_logger (env : Env) (cs : List LogCall) :
    ∀ w : World, (runCalls env w cs).logger.Severity = w.logger.Severity ∧
      (runCalls env w cs).logger.Trace = w.logger.Trace := by
  induction cs with
  | nil => intro w; exact ⟨rfl, rfl⟩
  | cons c rest ih =>
      intro w
      rw [runCalls]
      constructor
      · rw [(ih _).1]
        exact (write_frame env c.now c.loc w c.severity c.msg).2.1
      · rw [(ih _).2]
        exact (write_frame env c.now c.loc w c.severity c.msg).1

theorem wrwWrite_responseSize (env : Env) (w : WrwState) (u : UnderState) (b : List Nat) :
    (wrwWrite env w u b).1.responseSize = w.responseSize + (env.underWrite u.calls b).1 := by
  simp only [wrwWrite]
  split <;> rfl

theorem wrwWrite_status (env : Env) (w : WrwState) (u : UnderState) (b : List Nat) :
    (wrwWrite env w u b).1.status = if w.status = 0 then 200 else w.status := by
  simp only [wrwWrite]
  split <;> rfl

end Stalog

namespace Stalog

/-- Behaviour of a sequence of body writes through the wrapper: the calls
return exactly the underlying writer's answers, and the accumulated
`responseSize` grows by the sum of the reported counts. -/
theorem runWrites_spec (env : Env) (bs : List (List Nat)) :
    ∀ (w : WrwState) (u : UnderState),
      (runWrites env w u bs).2.2 = underResponses env u.calls bs ∧
      (runWrites env w u bs).1.responseSize
        = w.responseSize + ((underResponses env u.calls bs).map Prod.fst).sum := by
  induction bs with
  | nil =>
      intro w u
      exact ⟨rfl, by simp [runWrites, underResponses]⟩
  | cons b rest ih =>
      intro w u
      obtain ⟨h1, h2⟩ := ih (wrwWrite env w u b).1 (wrwWrite env w u b).2.1
      have hcalls : (wrwWrite env w u b).2.1.calls = u.calls + 1 := rfl
      have hres : ((wrwWrite env w u b).2.2.1, (wrwWrite env w u b).2.2.2)
          = env.underWrite u.calls b := rfl
      simp only [runWrites]
      constructor
      · rw [underResponses, h1, hcalls, hres]
      · rw [h2, wrwWrite_responseSize, hcalls, underResponses]
        simp [Nat.add_assoc]

/-- The argument of the last `WriteHeader` in an operation sequence, if
any. -/
def lastSetStatus : List RWOp → Option Int
  | [] => none
  | RWOp.writeHeader c :: rest => some ((lastSetStatus rest).getD c)
  | RWOp.writeBody _ :: rest => lastSetStatus rest

/-- Whether the operation sequence contains a body write. -/
def hasBody (ops : List RWOp) : Bool :=
  ops.any fun op => match op with
    | RWOp.writeBody _ => true
    | _ => false

/-- Recorded-status characterisation for any operation sequence whose
explicitly set statuses are nonzero (every valid HTTP status is): the
recorded status is the argument of the *last* `WriteHeader`, and when no
`WriteHeader` occurred, 200 after any body write and the initial value
otherwise. -/
theorem hasBody_cons_body (b : List Nat) (rest : List RWOp) :
    hasBody (RWOp.writeBody b :: rest) = true := by
  simp [hasBody]

theorem hasBody_cons_header (c : Int) (rest : List RWOp) :
    hasBody (RWOp.writeHeader c :: rest) = hasBody rest := by
  simp [hasBody]

theorem runOps_status (env : Env) :
    ∀ ops : List RWOp, (∀ c, RWOp.writeHeader c ∈ ops → c ≠ 0) →
    ∀ (w : WrwState) (u : UnderState),
      (runOps env w u ops).1.status =
        match lastSetStatus ops with
        | some c => c
        | none => if hasBody ops then (if w.status = 0 then 200 else w.status) else w.status := by
  intro ops
  induction ops with
  | nil =>
      intro _ w u
      rfl
  | cons a rest ih =>
      intro hc w u
      cases a with
      | writeHeader c =>
          have hc0 : c ≠ 0 := hc c (List.mem_cons_self _ _)
          have hrest : ∀ c', RWOp.writeHeader c' ∈ rest → c' ≠ 0 :=
            fun c' hm => hc c' (List.mem_cons_of_mem _ hm)
          have hwh : (wrwWriteHeader w u c).1.status = c := rfl
          rw [runOps, ih hrest _ _]
          rw [show lastSetStatus (RWOp.writeHeader c :: rest)
                = some ((lastSetStatus rest).getD c) from rfl]
          cases hls : lastSetStatus rest with
          | some c' => simp [hls]
          | none => simp [hls, hwh, hc0]
      | writeBody b =>
          have hrest : ∀ c', RWOp.writeHeader c' ∈ rest → c' ≠ 0 :=
            fun c' hm => hc c' (List.mem_cons_of_mem _ hm)
          have hne : (wrwWrite env w u b).1.status ≠ 0 := by
            rw [wrwWrite_status env w u b]
            by_cases h0 : w.status = 0 <;> simp [h0]
          rw [runOps, ih hrest _ _]
          rw [show lastSetStatus (RWOp.writeBody b :: rest) = lastSetStatus rest from rfl]
          cases hls : lastSetStatus rest with
          | some c' => simp [hls]
          | none =>
              have hss : (if (wrwWrite env w u b).1.status = 0 then 200
                  else (wrwWrite env w u b).1.status) = (wrwWrite env w u b).1.status := by
                simp [hne]
              simp only [hls, hss, hasBody_cons_body, wrwWrite_status env w u b, if_true]
              split <;> by_cases h0 : w.status = 0 <;> simp [h0]

end Stalog

namespace Stalog

/-- When access-log marshalling succeeds, `LastHandling` appends exactly the
record it built (with the wrapper's captured status and size, the reserve's
trace, and the logger's maximum severity) to the request-log sink. -/
theorem lastHandling_requestSink (env : Env) (now latency serverIp : String)
    (r : RequestFacts) (rv : Reserve) (w : World)
    (hm : ∀ e, env.marshalReq e = none) :
    (Reserve.LastHandling env now latency serverIp r rv w).requestSink
      = w.requestSink ++
        [mkRequestLog now r rv.config w.wrw.status w.wrw.responseSize
          latency serverIp rv.traces w.logger.maxSeverity] := by
  simp only [Reserve.LastHandling, writeRequestLog, hm]
  cases hre : env.reqSinkErr w.requestSinkCalls <;> simp [hre]

/-- `LastHandling` never touches the context-log sink or the logger. -/
theorem lastHandling_contextSink (env : Env) (now latency serverIp : String)
    (r : RequestFacts) (rv : Reserve) (w : World) :
    (Reserve.LastHandling env now latency serverIp r rv w).contextSink = w.contextSink ∧
    (Reserve.LastHandling env now latency serverIp r rv w).logger = w.logger := by
  simp only [Reserve.LastHandling, writeRequestLog]
  cases env.marshalReq (mkRequestLog now r rv.config w.wrw.status w.wrw.responseSize
      latency serverIp rv.traces w.logger.maxSeverity) with
  | some e => exact ⟨rfl, rfl⟩
  | none =>
      cases env.reqSinkErr w.requestSinkCalls with
      | some e => exact ⟨rfl, rfl⟩
      | none => exact ⟨rfl, rfl⟩

end Stalog

namespace Stalog

/-- Claim C8: the nine named severity values have strictly increasing numeric
ranks from `SeverityDefault` to `SeverityEmergency`, `Severity.String` maps
each named value to its canonical uppercase name, and rendering any numeric
value outside the nine named values yields "UNKNOWN" rather than failing. -/
theorem claim8_severity_enum :
    (SeverityDefault < SeverityDebug ∧ SeverityDebug < SeverityInfo ∧
     SeverityInfo < SeverityNotice ∧ SeverityNotice < SeverityWarning ∧
     SeverityWarning < SeverityError ∧ SeverityError < SeverityCritical ∧
     SeverityCritical < SeverityAlert ∧ SeverityAlert < SeverityEmergency)
    ∧ (Severity.String SeverityDefault = "DEFAULT" ∧
       Severity.String SeverityDebug = "DEBUG" ∧
       Severity.String SeverityInfo = "INFO" ∧
       Severity.String SeverityNotice = "NOTICE" ∧
       Severity.String SeverityWarning = "WARNING" ∧
       Severity.String SeverityError = "ERROR" ∧
       Severity.String SeverityCritical = "CRITICAL" ∧
       Severity.String SeverityAlert = "ALERT" ∧
       Severity.String SeverityEmergency = "EMERGENCY")
    ∧ (∀ s : Severity, s ∉ severityNames → Severity.String s = "UNKNOWN") := by
  refine ⟨by decide, ⟨rfl, rfl, rfl, rfl, rfl, rfl, rfl, rfl, rfl⟩, ?_⟩
  intro s hs
  simp only [severityNames, List.mem_cons, List.not_mem_nil, or_false, not_or] at hs
  obtain ⟨h1, h2, h3, h4, h5, h6, h7, h8, h9⟩ := hs
  simp [Severity.String, h1, h2, h3, h4, h5, h6, h7, h8, h9]

/-- Witness for C8 at the out-of-range value 42. -/
theorem claim8_severity_enum_witness :
    (42 : Severity) ∉ severityNames ∧ Severity.String 42 = "UNKNOWN" :=
  ⟨by decide, claim8_severity_enum.2.2 42 (by decide)⟩

/-- Claim C9: when the request's context storage carries no binding for the
middleware's logger key, `RequestContextLogger` returns `none` (Go `nil`)
rather than failing. -/
theorem claim9_absent_context (ctx : ReqCtx)
    (h : ∀ p ∈ ctx, p.1 ≠ ContextLoggerKey) :
    RequestContextLogger ctx = none := by
  unfold RequestContextLogger ctxLookup
  have hf : ctx.find? (fun p => p.1 == ContextLoggerKey) = none := by
    apply List.find?_eq_none.mpr
    intro p hp
    simp [h p hp]
  rw [hf]
  rfl

/-- Witness for C9 on a context bag holding only an unrelated value. -/
theorem claim9_absent_context_witness :
    RequestContextLogger [("other", CtxValue.other "x")] = none :=
  claim9_absent_context [("other", CtxValue.other "x")] (by decide)

/-- Claim C4: a logging call whose severity is strictly below the configured
threshold is a complete no-op: the call returns `(w, none)` — nothing is
written to the application log sink, the severity history (and hence
`maxSeverity`) is unchanged, and no error is returned. -/
theorem claim4_below_threshold_noop (env : Env) (now : String)
    (loc : SourceLocation) (w : World) (sev : Severity) (msg : String)
    (h : sev < w.logger.Severity) :
    ContextLogger.write env now loc w sev msg = (w, none)
    ∧ (ContextLogger.write env now loc w sev msg).1.contextSink = w.contextSink
    ∧ (ContextLogger.write env now loc w sev msg).1.logger.loggedSeverity
        = w.logger.loggedSeverity
    ∧ (ContextLogger.write env now loc w sev msg).1.logger.maxSeverity
        = w.logger.maxSeverity
    ∧ (ContextLogger.write env now loc w sev msg).2 = none := by
  have hw := write_below env now loc w sev msg h
  rw [hw]
  exact ⟨rfl, rfl, rfl, rfl, rfl⟩

/-- Witness for C4: a DEBUG call on an INFO-threshold context is a no-op. -/
theorem claim4_below_threshold_noop_witness :
    ContextLogger.write envOk "t0" loc0 world0 SeverityDebug "m" = (world0, none) :=
  (claim4_below_threshold_noop envOk "t0" loc0 world0 SeverityDebug "m" (by decide)).1

/-- Claim C10: an accepted logging call appends its severity to the history
before serialisation or the sink write is attempted: whatever the marshalling
and sink outcomes, the history gains the severity and `maxSeverity` is at
least that severity afterwards; and when serialisation fails, no application
log line is emitted (the context sink is unchanged). -/
theorem claim10_severity_before_emission (env : Env) (now : String)
    (loc : SourceLocation) (w : World) (sev : Severity) (msg : String)
    (h : ¬ sev < w.logger.Severity) :
    (ContextLogger.write env now loc w sev msg).1.logger.loggedSeverity
      = w.logger.loggedSeverity ++ [sev]
    ∧ sev ≤ (ContextLogger.write env now loc w sev msg).1.logger.maxSeverity
    ∧ (∀ e, env.marshalCtx (mkContextLog now loc w.logger.Trace w.logger.AdditionalData sev msg)
          = some e →
        (ContextLogger.write env now loc w sev msg).1.contextSink = w.contextSink) := by
  have hlog := write_accepted_logged env now loc w sev msg h
  refine ⟨hlog, ?_, ?_⟩
  · rw [maxSeverity_eq_fold, hlog]
    exact le_foldSev_of_mem _ _ _ (by simp)
  · intro e he
    rcases write_spec env now loc w sev msg with ⟨hlt, _⟩ | ⟨_, e', hm, hw⟩ | ⟨_, hm, _⟩
    · exact absurd hlt h
    · rw [hw]
    · rw [hm] at he
      cases he

/-- Witness for C10: an ERROR call whose serialisation fails still lands in
the history. -/
theorem claim10_severity_before_emission_witness :
    (ContextLogger.write envMarshalFail "t0" loc0 world0 SeverityError "m").1.logger.loggedSeverity
      = [SeverityError] := by
  simpa using
    (claim10_severity_before_emission envMarshalFail "t0" loc0 world0 SeverityError "m"
      (by decide)).1

end Stalog

namespace Stalog

/-- Counterexample to C3 as stated: on a context whose sink fails every
write, an accepted `Info` call's sink write fails (the internal `write`
returns the error), yet nothing is reported to the diagnostic stream — the
code only prints marshalling errors, not sink write errors, for application
log calls. -/
theorem claim3_counterexample :
    (ContextLogger.write envSinkFail "t0" loc0 world0 SeverityInfo "m").2
      = some "write: broken pipe"
    ∧ (ContextLogger.Info envSinkFail "t0" loc0 world0 "m").stderrLines = [] :=
  ⟨rfl, rfl⟩

/-- Claim C3 (amended): every public logging method returns normally — its
result is exactly the state component of the internal `write`, whose error is
discarded, so neither failure kind reaches the application. A serialisation
failure is reported to the diagnostic stream (stderr) and suppresses the sink
write; a sink write failure is *not* reported to stderr — it is silently
swallowed. -/
theorem claim3_failures_swallowed (env : Env) (now : String)
    (loc : SourceLocation) (w : World) (sev : Severity) (msg : String) :
    ContextLogger.publicLog sev env now loc w msg
      = (ContextLogger.write env now loc w sev msg).1
    ∧ (∀ e, ¬ sev < w.logger.Severity →
        env.marshalCtx (mkContextLog now loc w.logger.Trace w.logger.AdditionalData sev msg)
          = some e →
        (ContextLogger.write env now loc w sev msg).1.stderrLines = w.stderrLines ++ [e]
        ∧ (ContextLogger.write env now loc w sev msg).1.contextSink = w.contextSink)
    ∧ (env.marshalCtx (mkContextLog now loc w.logger.Trace w.logger.AdditionalData sev msg)
          = none →
        (ContextLogger.write env now loc w sev msg).1.stderrLines = w.stderrLines) := by
  refine ⟨rfl, ?_, ?_⟩
  · intro e hacc he
    rcases write_spec env now loc w sev msg with ⟨hlt, _⟩ | ⟨_, e', hm, hw⟩ | ⟨_, hm, _⟩
    · exact absurd hlt hacc
    · rw [hm] at he
      cases he
      rw [hw]
      exact ⟨rfl, rfl⟩
    · rw [hm] at he
      cases he
  · intro he
    rcases write_spec env now loc w sev msg with ⟨_, hw⟩ | ⟨_, e', hm, _⟩ | ⟨_, _, hw⟩
    · rw [hw]
    · rw [hm] at he
      cases he
    · rw [hw]

/-- Witness for the amended C3: a marshalling failure is printed to stderr
and the call still returns its state normally. -/
theorem claim3_failures_swallowed_witness :
    (ContextLogger.write envMarshalFail "t0" loc0 world0 SeverityError "m").1.stderrLines
      = ["json: unsupported type"] := by
  simpa using
    ((claim3_failures_swallowed envMarshalFail "t0" loc0 world0 SeverityError "m").2.1
      "json: unsupported type" (by decide) rfl).1

/-- Counterexample to C2 as stated: after `WriteHeader(500)` then
`WriteHeader(404)`, the recorded status is 404, not the first explicitly set
status 500 — a later explicit status-set call *does* change the recorded
value, because `WriteHeader` overwrites `w.status` unconditionally. -/
theorem claim2_counterexample :
    (runOps envOk { status := 0, responseSize := 0 }
        { chunks := [], headerCalls := [], calls := 0 }
        [RWOp.writeHeader 500, RWOp.writeHeader 404]).1.status = 404
    ∧ (404 : Int) ≠ 500 :=
  ⟨rfl, by decide⟩

/-- Claim C2 (amended): starting from a fresh wrapper (status 0), the
recorded status equals the argument of the *last* explicit `WriteHeader`
call; if no status was ever explicitly set it is 200 when at least one body
write occurred and 0 otherwise (explicitly set statuses are assumed nonzero,
as every valid HTTP status is). -/
theorem claim2_recorded_status (env : Env) (ops : List RWOp) (u : UnderState)
    (hc : ∀ c, RWOp.writeHeader c ∈ ops → c ≠ 0) :
    (runOps env { status := 0, responseSize := 0 } u ops).1.status =
      match lastSetStatus ops with
      | some c => c
      | none => if hasBody ops then 200 else 0 := by
  rw [runOps_status env ops hc { status := 0, responseSize := 0 } u]
  cases lastSetStatus ops <;> simp

/-- Witness for the amended C2: a body write followed by an explicit 500
records 500. -/
theorem claim2_recorded_status_witness :
    (runOps envOk { status := 0, responseSize := 0 }
        { chunks := [], headerCalls := [], calls := 0 }
        [RWOp.writeBody [1], RWOp.writeHeader 500]).1.status = 500 := by
  have h := claim2_recorded_status envOk [RWOp.writeBody [1], RWOp.writeHeader 500]
    { chunks := [], headerCalls := [], calls := 0 }
    (by
      intro c hm
      simp only [List.mem_cons, List.not_mem_nil, or_false] at hm
      rcases hm with hm | hm
      · cases hm
      · cases hm
        omega)
  simpa [lastSetStatus] using h

/-- Claim C6: over any sequence of body writes, the wrapper returns to the
caller exactly the `(n, err)` answers of the underlying response sink
(errors included), and the accumulated `responseSize` grows by the sum of
the reported counts `n` — accumulation is unaffected by errors and counts
only what the underlying sink reported as written. -/
theorem claim6_byte_count (env : Env) (bs : List (List Nat)) (w : WrwState)
    (u : UnderState) :
    (runWrites env w u bs).2.2 = underResponses env u.calls bs
    ∧ (runWrites env w u bs).1.responseSize
        = w.responseSize + (((runWrites env w u bs).2.2).map Prod.fst).sum := by
  obtain ⟨h1, h2⟩ := runWrites_spec env bs w u
  refine ⟨h1, ?_⟩
  rw [h1]
  exact h2

end Stalog

namespace Stalog

/-- Handler fixture: logs one ERROR then panics. -/
def hspec0 : HandlerSpec :=
  { acts := [HandlerAct.log SeverityError "boom" "t0" loc0],
    outcome := Outcome.panicked "boom" }

/-- Logging-call fixture: one INFO and one ERROR call. -/
def calls0 : List LogCall :=
  [{ severity := SeverityInfo, msg := "a", now := "t0", loc := loc0 },
   { severity := SeverityError, msg := "b", now := "t1", loc := loc0 }]

/-- Claim C1: for a freshly created request context and any finite sequence
of accepted logging calls (severities at or above the threshold, drawn from
the named values, hence at least DEFAULT), `maxSeverity()` is the
highest-ranked severity among the calls' severities — a member that bounds
them all — and DEFAULT when the sequence is empty; and this value, rendered
by `Severity.String`, is the severity of the one access-log entry
`LastHandling` writes. -/
theorem claim1_max_severity (env : Env) (config : Config) (traceId : String)
    (cs : List LogCall) (r : RequestFacts) (now latency serverIp : String)
    (w : World)
    (hacc : ∀ c ∈ cs, config.Severity ≤ c.severity)
    (hdef : ∀ c ∈ cs, SeverityDefault ≤ c.severity)
    (hm : ∀ e, env.marshalReq e = none) :
    (cs = [] →
      (runCalls env (reserveWorld config traceId w) cs).logger.maxSeverity
        = SeverityDefault)
    ∧ (cs ≠ [] →
        (runCalls env (reserveWorld config traceId w) cs).logger.maxSeverity
          ∈ cs.map LogCall.severity
        ∧ ∀ s ∈ cs.map LogCall.severity,
            s ≤ (runCalls env (reserveWorld config traceId w) cs).logger.maxSeverity)
    ∧ (Reserve.LastHandling env now latency serverIp r (NewReserve config traceId)
          (runCalls env (reserveWorld config traceId w) cs)).requestSink
        = (runCalls env (reserveWorld config traceId w) cs).requestSink
          ++ [mkRequestLog now r config
                (runCalls env (reserveWorld config traceId w) cs).wrw.status
                (runCalls env (reserveWorld config traceId w) cs).wrw.responseSize
                latency serverIp (NewReserve config traceId).traces
                (runCalls env (reserveWorld config traceId w) cs).logger.maxSeverity]
    ∧ (mkRequestLog now r config
          (runCalls env (reserveWorld config traceId w) cs).wrw.status
          (runCalls env (reserveWorld config traceId w) cs).wrw.responseSize
          latency serverIp (NewReserve config traceId).traces
          (runCalls env (reserveWorld config traceId w) cs).logger.maxSeverity).Severity
        = Severity.String
            (runCalls env (reserveWorld config traceId w) cs).logger.maxSeverity := by
  have hbase : (reserveWorld config traceId w).logger.loggedSeverity
      = ([] : List Severity) := rfl
  have hthr : (reserveWorld config traceId w).logger.Severity = config.Severity := rfl
  have hall : ∀ a ∈ cs.map LogCall.severity,
      (fun s => decide ((reserveWorld config traceId w).logger.Severity ≤ s)) a = true := by
    intro a ha
    rcases List.mem_map.mp ha with ⟨c, hc, rfl⟩
    simpa [hthr] using hacc c hc
  have hlogged : (runCalls env (reserveWorld config traceId w) cs).logger.loggedSeverity
      = cs.map LogCall.severity := by
    rw [runCalls_logged env cs (reserveWorld config traceId w), hbase, List.nil_append,
        List.filter_eq_self.mpr hall]
  have hmx : (runCalls env (reserveWorld config traceId w) cs).logger.maxSeverity
      = (cs.map LogCall.severity).foldl sevStep SeverityDefault := by
    rw [maxSeverity_eq_fold, hlogged]
  refine ⟨?_, ?_, ?_, rfl⟩
  · intro hcs
    rw [hmx, hcs]
    rfl
  · intro hne
    constructor
    · rcases foldSev_mem_or_init (cs.map LogCall.severity) SeverityDefault with h0 | h0
      · obtain ⟨c, hc⟩ := List.exists_mem_of_ne_nil cs hne
        have hmem : c.severity ∈ cs.map LogCall.severity :=
          List.mem_map_of_mem LogCall.severity hc
        have h1 : c.severity ≤ (cs.map LogCall.severity).foldl sevStep SeverityDefault :=
          le_foldSev_of_mem _ _ _ hmem
        have h2 : SeverityDefault ≤ c.severity := hdef c hc
        have h3 : (cs.map LogCall.severity).foldl sevStep SeverityDefault = c.severity :=
          le_antisymm (by rw [h0]; exact h2) h1
        rw [hmx, h3]
        exact hmem
      · rw [hmx]
        exact h0
    · intro s hs
      rw [hmx]
      exact le_foldSev_of_mem _ _ _ hs
  · exact lastHandling_requestSink env now latency serverIp r (NewReserve config traceId)
      (runCalls env (reserveWorld config traceId w) cs) hm

/-- Witness for C1: two accepted calls (INFO then ERROR); the access-log
entry appended carries the computed maximum. -/
theorem claim1_max_severity_witness :
    (Reserve.LastHandling envOk "t9" "0.1s" "1.2.3.4" facts0 (NewReserve cfg0 "t")
        (runCalls envOk (reserveWorld cfg0 "t" world0) calls0)).requestSink
      = (runCalls envOk (reserveWorld cfg0 "t" world0) calls0).requestSink
        ++ [mkRequestLog "t9" facts0 cfg0
              (runCalls envOk (reserveWorld cfg0 "t" world0) calls0).wrw.status
              (runCalls envOk (reserveWorld cfg0 "t" world0) calls0).wrw.responseSize
              "0.1s" "1.2.3.4" (NewReserve cfg0 "t").traces
              (runCalls envOk (reserveWorld cfg0 "t" world0) calls0).logger.maxSeverity] :=
  (claim1_max_severity envOk cfg0 "t" calls0 facts0 "t9" "0.1s" "1.2.3.4" world0
    (by decide) (by decide) (fun _ => rfl)).2.2.1

/-- Claim C5: the middleware emits exactly one access-log line per request,
appended after the downstream handler has finished, on every exit path —
the handler's actions never touch the request-log sink, `LastHandling` runs
via `defer` for a normal return and a panic alike, and the handler's outcome
then propagates unchanged. (Stated under the assumption that access-log
serialisation succeeds; a marshalling failure is routed to stderr instead,
per the code's error handling.) -/
theorem claim5_exactly_one_access_line (env : Env) (config : Config)
    (traceId : String) (hs : HandlerSpec) (r : RequestFacts)
    (now latency serverIp : String) (w : World)
    (hm : ∀ e, env.marshalReq e = none) :
    (RequestLogging env config traceId hs r now latency serverIp w).1.requestSink
      = w.requestSink ++
        [mkRequestLog now r config
          (runHandler env (preHandlerWorld config traceId w) hs.acts).wrw.status
          (runHandler env (preHandlerWorld config traceId w) hs.acts).wrw.responseSize
          latency serverIp (traceResource config.ProjectId traceId)
          (runHandler env (preHandlerWorld config traceId w) hs.acts).logger.maxSeverity]
    ∧ (∀ k, (runHandler env (preHandlerWorld config traceId w) (hs.acts.take k)).requestSink
        = w.requestSink)
    ∧ (RequestLogging env config traceId hs r now latency serverIp w).2 = hs.outcome := by
  refine ⟨?_, ?_, rfl⟩
  · show (Reserve.LastHandling env now latency serverIp r (NewReserve config traceId)
        (runHandler env (preHandlerWorld config traceId w) hs.acts)).requestSink = _
    rw [lastHandling_requestSink env now latency serverIp r (NewReserve config traceId)
        (runHandler env (preHandlerWorld config traceId w) hs.acts) hm]
    rw [runHandler_requestSink env hs.acts (preHandlerWorld config traceId w)]
    rfl
  · intro k
    rw [runHandler_requestSink env (hs.acts.take k) (preHandlerWorld config traceId w)]
    rfl

/-- Witness for C5: a handler that logs once and panics still yields exactly
one access-log line. -/
theorem claim5_exactly_one_access_line_witness :
    (RequestLogging envOk cfg0 "t" hspec0 facts0 "t9" "0.1s" "1.2.3.4" world0).1.requestSink.length
      = 1 := by
  rw [(claim5_exactly_one_access_line envOk cfg0 "t" hspec0 facts0 "t9" "0.1s" "1.2.3.4" world0
    (fun _ => rfl)).1]
  rfl

/-- Claim C7: every application log line added during a request carries the
trace string computed once at context creation
(`projects/<project-id>/traces/<trace-id>`), and the access-log entry for the
same request carries the same trace string. -/
theorem claim7_trace_consistency (env : Env) (config : Config)
    (traceId : String) (hs : HandlerSpec) (r : RequestFacts)
    (now latency serverIp : String) (w : World)
    (hm : ∀ e, env.marshalReq e = none) :
    (∀ e ∈ (RequestLogging env config traceId hs r now latency serverIp w).1.contextSink,
        e ∈ w.contextSink ∨ e.Trace = traceResource config.ProjectId traceId)
    ∧ (RequestLogging env config traceId hs r now latency serverIp w).1.requestSink
        = w.requestSink ++
          [mkRequestLog now r config
            (runHandler env (preHandlerWorld config traceId w) hs.acts).wrw.status
            (runHandler env (preHandlerWorld config traceId w) hs.acts).wrw.responseSize
            latency serverIp (traceResource config.ProjectId traceId)
            (runHandler env (preHandlerWorld config traceId w) hs.acts).logger.maxSeverity]
    ∧ (mkRequestLog now r config
          (runHandler env (preHandlerWorld config traceId w) hs.acts).wrw.status
          (runHandler env (preHandlerWorld config traceId w) hs.acts).wrw.responseSize
          latency serverIp (traceResource config.ProjectId traceId)
          (runHandler env (preHandlerWorld config traceId w) hs.acts).logger.maxSeverity).Trace
        = traceResource config.ProjectId traceId := by
  refine ⟨?_, ?_, rfl⟩
  · intro e he
    have hLH := (lastHandling_contextSink env now latency serverIp r
        (NewReserve config traceId)
        (runHandler env (preHandlerWorld config traceId w) hs.acts)).1
    rw [show (RequestLogging env config traceId hs r now latency serverIp w).1
          = Reserve.LastHandling env now latency serverIp r (NewReserve config traceId)
              (runHandler env (preHandlerWorld config traceId w) hs.acts) from rfl,
        hLH] at he
    rcases runHandler_contextSink env hs.acts (preHandlerWorld config traceId w) e he with h | h
    · exact Or.inl h
    · right
      rw [h]
      rfl
  · show (Reserve.LastHandling env now latency serverIp r (NewReserve config traceId)
        (runHandler env (preHandlerWorld config traceId w) hs.acts)).requestSink = _
    rw [lastHandling_requestSink env now latency serverIp r (NewReserve config traceId)
        (runHandler env (preHandlerWorld config traceId w) hs.acts) hm]
    rw [runHandler_requestSink env hs.acts (preHandlerWorld config traceId w)]
    rfl

/-- Witness for C7: the application log line the fixture handler produced
either predates the request or carries the request's trace string. -/
theorem claim7_trace_consistency_witness :
    mkContextLog "t0" loc0 (traceResource cfg0.ProjectId "t") cfg0.AdditionalData
        SeverityError "boom" ∈ world0.contextSink
    ∨ (mkContextLog "t0" loc0 (traceResource cfg0.ProjectId "t") cfg0.AdditionalData
        SeverityError "boom").Trace = traceResource cfg0.ProjectId "t" :=
  (claim7_trace_consistency envOk cfg0 "t" hspec0 facts0 "t9" "0.1s" "1.2.3.4" world0
    (fun _ => rfl)).1
    (mkContextLog "t0" loc0 (traceResource cfg0.ProjectId "t") cfg0.AdditionalData
      SeverityError "boom") (by decide)

end Stalog
